import Mathlib

/-!
Verification of the book-downloader core (backend.py, downloader.py) against
its natural-language specification.  The Python source is shallowly embedded:
pure helpers become Lean functions; the stateful fetch loops become functions
over explicit scripts of HTTP events; filesystem and queue effects are
represented by explicit inputs (does a path exist, what status the queue
records) and outputs (ordered lists of queue actions, the set of emitted
progress reports, whether the destination file survives).

External collaborators that the source calls but whose internals are not part
of the repository are abstracted as function parameters:
  * `email.utils.parsedate_to_datetime` becomes `parsedate : String → Option ℚ`
    returning the parsed absolute time in seconds (UTC), or `none` when the
    library raises or returns `None`;
  * `hashlib.md5(...).hexdigest()` becomes `md5hex : String → String`;
  * the configuration constants `DEFAULT_SLEEP`, `RATE_LIMIT_MAX_SLEEP`,
    `USE_BOOK_TITLE`, `USE_CF_BYPASS`, `INGEST_DIR`, `TMP_DIR` become
    parameters.
Seconds and percentages are modelled as rationals.
-/

namespace BookDl

/-- Queue status enumeration (models.QueueStatus, spec section 3: values
QUEUED, DOWNLOADING, AVAILABLE, DONE, ERROR, CANCELLED). -/
inductive QueueStatus where
  | QUEUED
  | DOWNLOADING
  | AVAILABLE
  | DONE
  | ERROR
  | CANCELLED
deriving DecidableEq, Repr

/-- Book descriptor (models.BookInfo): stable `id`, `title`, optional
`format`.  An absent or empty format is falsy in the Python source. -/
structure BookInfo where
  id : String
  title : String
  format : Option String
deriving DecidableEq, Repr

/-- Python truthiness of an optional string: `None` and `""` are falsy. -/
def optStrTruthy : Option String → Bool
  | none => false
  | some s => !s.isEmpty

/-- Python `str.rstrip()` on a character list: drop trailing whitespace. -/
def rstripChars (cs : List Char) : List Char :=
  (cs.reverse.dropWhile Char.isWhitespace).reverse

/-- backend._sanitize_filename: keep alphanumerics and space, dot,
underscore, then right-strip trailing whitespace. -/
def _sanitize_filename (filename : String) : String :=
  String.mk (rstripChars (filename.toList.filter
    (fun c => c.isAlphanum || c = ' ' || c = '.' || c = '_')))

/-- The extension fragment: `"." ++ format` when the format is truthy,
otherwise empty (backend.py line 226 and line 419). -/
def formatExtension (format : Option String) : String :=
  match format with
  | some f => if f.isEmpty then "" else "." ++ f
  | none => ""

/-- backend._build_ingest_paths: returns (final_path, intermediate_path,
filename_stem).  `md5hex` abstracts `hashlib.md5(·.encode()).hexdigest()`;
`ubt` is the USE_BOOK_TITLE flag; `ingestDir` is INGEST_DIR. -/
def _build_ingest_paths (md5hex : String → String) (ubt : Bool)
    (ingestDir : String) (book : BookInfo) : String × String × String :=
  let filename_stem :=
    if ubt then
      let sanitized_title := _sanitize_filename book.title
      let sanitized_title := if sanitized_title = "" then "book" else sanitized_title
      sanitized_title ++ "-" ++ (md5hex book.id).take 8
    else book.id
  let book_name := filename_stem ++ formatExtension book.format
  (ingestDir ++ "/" ++ book_name,
   ingestDir ++ "/" ++ book.id ++ ".crdownload",
   filename_stem)

/-- The path-building fragment of backend._download_book_with_cancellation
(lines 410-421 and 455-456): the worker recomputes the filename stem inline
from the queue's BookInfo and the `book_id` argument, stages at
`TMP_DIR/book_name`, and publishes via `INGEST_DIR/{book_id}.crdownload` to
`INGEST_DIR/book_name`.  Returns (staging book_path, intermediate_path,
final_path). -/
def workerIngestTargets (md5hex : String → String) (ubt : Bool)
    (tmpDir ingestDir : String) (book_id : String) (book : BookInfo) :
    String × String × String :=
  let filename_stem :=
    if ubt then
      let sanitized_title := _sanitize_filename book.title
      let sanitized_title := if sanitized_title = "" then "book" else sanitized_title
      sanitized_title ++ "-" ++ (md5hex book_id).take 8
    else book_id
  let book_name := filename_stem ++ formatExtension book.format
  (tmpDir ++ "/" ++ book_name,
   ingestDir ++ "/" ++ book_id ++ ".crdownload",
   ingestDir ++ "/" ++ book_name)

/-- Published filename as the specification words it (spec section 4.4,
"Filename derivation"): if USE_BOOK_TITLE, the stem is the title filtered to
alphanumerics plus space, dot and underscore, right-stripped, with the empty
result replaced by "book", followed by "-" and the first 8 hex characters of
MD5(book_id); otherwise the stem is book_id; a "." plus the format is
appended exactly when the format is non-empty. -/
def specPublishedFilename (md5hex : String → String) (ubt : Bool)
    (book : BookInfo) : String :=
  let stem :=
    if ubt then
      let filtered := String.mk (rstripChars (book.title.toList.filter
        (fun c => c.isAlphanum || c = ' ' || c = '.' || c = '_')))
      let base := if filtered = "" then "book" else filtered
      base ++ "-" ++ (md5hex book.id).take 8
    else book.id
  let ext :=
    match book.format with
    | some f => if f = "" then "" else "." ++ f
    | none => ""
  stem ++ ext

/-- Duplicate metadata (models.DuplicateEntry) as far as detect_duplicate
populates it.  The Python field `status` stores `status.value`; we keep the
enum itself since the claims only compare reasons and paths. -/
structure DuplicateEntry where
  book_id : String
  ingest_path : String
  reason : String
  existing_path : Option String
  status : Option QueueStatus
deriving DecidableEq, Repr

/-- backend.detect_duplicate (lines 233-264).  The queue is abstracted by
its observations: `queueStatus` is `book_queue.get_status_for(book.id)` and
`queueDownloadPath` is the `download_path` of `book_queue.get_book(book.id)`
(`none` when the book or its path is absent).  `finalExists` and
`intermediateExists` are the filesystem existence checks on the two built
paths. -/
def detect_duplicate (md5hex : String → String) (ubt : Bool)
    (ingestDir : String) (queueStatus : Option QueueStatus)
    (queueDownloadPath : Option String) (finalExists intermediateExists : Bool)
    (book : BookInfo) : Option DuplicateEntry :=
  let paths := _build_ingest_paths md5hex ubt ingestDir book
  let final_path := paths.1
  let intermediate_path := paths.2.1
  let statusNonExcluded :=
    match queueStatus with
    | some s => decide (s ∉ [QueueStatus.ERROR, QueueStatus.DONE, QueueStatus.CANCELLED])
    | none => false
  let reasonAndPath : Option (String × Option String) :=
    if statusNonExcluded then
      some ("queued", if optStrTruthy queueDownloadPath then queueDownloadPath else none)
    else if finalExists then
      some ("on_disk", some final_path)
    else if intermediateExists then
      some ("downloading", some intermediate_path)
    else none
  match reasonAndPath with
  | none => none
  | some (reason, existing_path) =>
      some { book_id := book.id
             ingest_path := final_path
             reason := reason
             existing_path := existing_path
             status := queueStatus }

/-- The terminal statuses as claim C1 and spec section 3 list them:
AVAILABLE, DONE, ERROR and CANCELLED. -/
def specTerminalStatuses : List QueueStatus :=
  [QueueStatus.AVAILABLE, QueueStatus.DONE, QueueStatus.ERROR, QueueStatus.CANCELLED]

/-- Retry tuning configuration (env.DEFAULT_SLEEP, env.RATE_LIMIT_MAX_SLEEP),
in seconds. -/
structure RetryConfig where
  defaultSleep : ℚ
  rateLimitMaxSleep : ℚ
deriving DecidableEq, Repr

/-- Python `str.strip()`: drop leading and trailing whitespace. -/
def pyStrip (s : String) : String :=
  String.mk (((s.toList.dropWhile Char.isWhitespace).reverse.dropWhile
    Char.isWhitespace).reverse)

/-- Python `str.isdigit()` restricted to ASCII: non-empty and all decimal
digits. -/
def pyIsdigit (s : String) : Bool :=
  !s.isEmpty && s.toList.all Char.isDigit

/-- Numeric value of an all-digits string (what Python `float(s)` yields on a
string accepted by `isdigit`). -/
def digitsValue (s : String) : Nat :=
  s.toList.foldl (fun a c => 10 * a + (c.toNat - 48)) 0

/-- downloader._parse_retry_after (lines 39-65).  `parsedate` abstracts
`email.utils.parsedate_to_datetime` composed with the naive-to-UTC fixup: it
yields the parsed absolute time in seconds, or `none` when parsing raises or
returns `None`.  `now` is the current absolute time in seconds. -/
def _parse_retry_after (parsedate : String → Option ℚ) (now : ℚ)
    (retry_after : Option String) : Option ℚ :=
  match retry_after with
  | none => none
  | some s =>
    if s.isEmpty then none
    else
      let s := pyStrip s
      if s.isEmpty then none
      else if pyIsdigit s then some (digitsValue s : ℚ)
      else
        match parsedate s with
        | none => none
        | some t => some (max (t - now) 0)

/-- downloader._rate_limit_wait_details (lines 68-81): for a 429/503
response, the wait seconds (header-derived or exponential fallback, clamped
into [0, RATE_LIMIT_MAX_SLEEP]) together with the raw header value;
otherwise `none`. -/
def _rate_limit_wait_details (cfg : RetryConfig)
    (parsedate : String → Option ℚ) (now : ℚ) (status : Nat)
    (retryAfterHeader : Option String) (consecutive_attempts : Nat) :
    Option (ℚ × Option String) :=
  if status = 429 ∨ status = 503 then
    let wait0 :=
      match retryAfterHeader with
      | none => none
      | some h => _parse_retry_after parsedate now (some h)
    let wait1 :=
      match wait0 with
      | none => cfg.defaultSleep * 2 ^ consecutive_attempts
      | some w => w
    some (max 0 (min wait1 cfg.rateLimitMaxSleep), retryAfterHeader)
  else none

/-- A response observed by `requests.get` inside html_get_page: status code,
raw Retry-After header, body text. -/
structure PageResponse where
  status : Nat
  retryAfter : Option String
  body : String
deriving DecidableEq, Repr

/-- One `requests.get` event in a scripted run: either a response or a raised
exception. -/
inductive GetEvent where
  | ok (r : PageResponse)
  | exc
deriving DecidableEq, Repr

/-- Outcome of a scripted html_get_page run: the returned string (`none`
when the finite script is exhausted before the call returns), and how many
`requests.get` and bypass-fetcher calls were made. -/
structure FetchOutcome where
  result : Option String
  getsUsed : Nat
  bypassUsed : Nat
deriving DecidableEq, Repr

/-- Bump the `requests.get` call count of an outcome. -/
def FetchOutcome.bumpGet (o : FetchOutcome) : FetchOutcome :=
  { o with getsUsed := o.getsUsed + 1 }

/-- Bump the bypass call count of an outcome. -/
def FetchOutcome.bumpBypass (o : FetchOutcome) : FetchOutcome :=
  { o with bypassUsed := o.bypassUsed + 1 }

/-- The retry loop of downloader.html_get_page (lines 84-160) over scripts of
events: `gets` feeds successive `requests.get` calls, `bypasses` feeds
successive `get_bypassed_page` calls (`some page` returns, `none` raises).
State: remaining fuel (each iteration consumes one scripted event, so fuel
covering both script lengths is enough), the two scripts, `retries`
(retries_remaining, an integer), `k` (rate_limit_attempts), `useByp`
(current_use_bypasser).  `useCF` is the USE_CF_BYPASS flag. -/
def htmlGetPageGo (useCF : Bool) (cfg : RetryConfig)
    (parsedate : String → Option ℚ) (now : ℚ) :
    Nat → List GetEvent → List (Option String) → Int → Nat → Bool →
    FetchOutcome
  | 0, _, _, _, _, _ => ⟨none, 0, 0⟩
  | Nat.succ fuel, gets, bypasses, retries, k, useByp =>
    if retries < 0 then ⟨some "", 0, 0⟩
    else if useByp && useCF then
      match bypasses with
      | [] => ⟨none, 0, 0⟩
      | some page :: _ => FetchOutcome.bumpBypass ⟨some page, 0, 0⟩
      | none :: bs =>
          -- bypass raised; response is None, so the except falls through to
          -- the generic sleep / decrement / reset branch
          FetchOutcome.bumpBypass
            (if retries = 0 then ⟨some "", 0, 0⟩
             else htmlGetPageGo useCF cfg parsedate now fuel gets bs
                    (retries - 1) 0 useByp)
    else
      match gets with
      | [] => ⟨none, 0, 0⟩
      | GetEvent.exc :: gs =>
          -- requests.get raised; response is None
          FetchOutcome.bumpGet
            (if retries = 0 then ⟨some "", 0, 0⟩
             else htmlGetPageGo useCF cfg parsedate now fuel gs bypasses
                    (retries - 1) 0 useByp)
      | GetEvent.ok r :: gs =>
          FetchOutcome.bumpGet
            (match _rate_limit_wait_details cfg parsedate now r.status
                     r.retryAfter k with
             | some _ =>
                 -- rate limited: sleep and retry WITHOUT touching retries
                 htmlGetPageGo useCF cfg parsedate now fuel gs bypasses
                   retries (k + 1) useByp
             | none =>
                 -- rate_limit_attempts reset to 0, then raise_for_status
                 if 400 ≤ r.status then
                   -- HTTPError caught by the except clause, response = some r
                   if retries = 0 then ⟨some "", 0, 0⟩
                   else if r.status = 404 then ⟨some "", 0, 0⟩
                   else if r.status = 403 then
                     htmlGetPageGo useCF cfg parsedate now fuel gs bypasses
                       (retries - 1) 0 true
                   else
                     htmlGetPageGo useCF cfg parsedate now fuel gs bypasses
                       (retries - 1) 0 useByp
                 else ⟨some r.body, 0, 0⟩)

/-- downloader.html_get_page over scripted events; fuel is one more than the
total script length, which an iteration-per-event loop can never exhaust
before the scripts do. -/
def html_get_page (useCF : Bool) (cfg : RetryConfig)
    (parsedate : String → Option ℚ) (now : ℚ) (gets : List GetEvent)
    (bypasses : List (Option String)) (retry : Int) (use_bypasser : Bool) :
    FetchOutcome :=
  htmlGetPageGo useCF cfg parsedate now (gets.length + bypasses.length + 1)
    gets bypasses retry 0 use_bypasser

/-- One chunk yielded by `response.iter_content` in download_url, together
with the environment the loop observes while handling it: the value of
`time.monotonic()` at the report check, and the cancel flag as read at the
two checks (before the emptiness test and after the write). -/
structure DlChunk where
  size : Nat
  now : ℚ
  cancelBefore : Bool
  cancelAfter : Bool
deriving DecidableEq, Repr

/-- A response observed by `requests.get(stream=True)` in download_url.
`contentLength` is the `int(...)` value of the content-length header when
present and parseable (the header-to-int conversion is external input);
Python `int` accepts negative header values such as `Content-Length: -1`,
so the type is `Option Int`. -/
structure DlResponse where
  status : Nat
  retryAfter : Option String
  contentLength : Option Int
  contentType : String
  chunks : List DlChunk
deriving DecidableEq, Repr

/-- One `requests.get(stream=True)` event: a response or a raised
RequestException. -/
inductive DlGet where
  | ok (r : DlResponse)
  | exc
deriving DecidableEq, Repr

/-- Python `str.startswith`: list-level prefix test. -/
def pyStartswith (s pre : String) : Bool :=
  List.isPrefixOf pre.toList s.toList

/-- Python truthiness of the optional `total_size`: known and non-zero (a
negative total is truthy). -/
def totalTruthy : Option Int → Bool
  | some t => decide (t ≠ 0)
  | none => false

/-- The percentage download_url computes for `bytes_downloaded` against a
(non-zero, possibly negative) total: `min(bytes / total * 100.0, 100.0)`. -/
def pct (total : Int) (bytes : Nat) : ℚ :=
  min ((bytes : ℚ) / (total : ℚ) * 100) 100

/-- State and observations carried out of the chunk loop of download_url
(lines 292-322): whether a cancel check fired, bytes written, the
last-reported percent and time, whether a 100.0 report happened, and the
percentages reported during the loop, in order. -/
structure LoopOut where
  cancelled : Bool
  bytes : Nat
  lastPercent : ℚ
  lastTime : ℚ
  reportedCompletion : Bool
  reports : List ℚ
deriving DecidableEq, Repr

/-- The chunk loop of download_url.  `hasCb` is `progress_callback is not
None`; `total` is the resolved `total_size`.  State arguments mirror
`bytes_downloaded`, `last_report_percent`, `last_report_time`,
`reported_completion`. -/
def chunkLoop (hasCb : Bool) (total : Option Int) :
    List DlChunk → Nat → ℚ → ℚ → Bool → LoopOut
  | [], bytes, lastP, lastT, rc => ⟨false, bytes, lastP, lastT, rc, []⟩
  | c :: cs, bytes, lastP, lastT, rc =>
    if c.cancelBefore then ⟨true, bytes, lastP, lastT, rc, []⟩
    else if c.size = 0 then chunkLoop hasCb total cs bytes lastP lastT rc
    else
      let bytes1 := bytes + c.size
      if c.cancelAfter then ⟨true, bytes1, lastP, lastT, rc, []⟩
      else
        match total with
        | some t =>
          if hasCb && totalTruthy (some t) then
            let percent := pct t bytes1
            if 100 ≤ percent ∨ 1 ≤ percent - lastP ∨ (1 / 4 : ℚ) ≤ c.now - lastT then
              let rc1 := rc || decide (100 ≤ percent)
              let rest := chunkLoop hasCb total cs bytes1 percent c.now rc1
              { rest with reports := percent :: rest.reports }
            else chunkLoop hasCb total cs bytes1 lastP lastT rc
          else chunkLoop hasCb total cs bytes1 lastP lastT rc
        | none => chunkLoop hasCb total cs bytes1 lastP lastT rc

/-- The rate-limit pre-loop of download_url (lines 243-260): walk the get
script until a non-rate-limited outcome.  `none` = script exhausted
(model stuck); `some none` = a RequestException was raised; `some (some r)`
= final response in hand. -/
def dlFetchLoop (cfg : RetryConfig) (parsedate : String → Option ℚ)
    (now : ℚ) : List DlGet → Nat → Option (Option DlResponse)
  | [], _ => none
  | DlGet.exc :: _, _ => some none
  | DlGet.ok r :: gs, k =>
    match _rate_limit_wait_details cfg parsedate now r.status r.retryAfter k with
    | some _ => dlFetchLoop cfg parsedate now gs (k + 1)
    | none => some (some r)

/-- Result of a scripted download_url run against a filesystem-path
destination the engine opened itself: the returned boolean (`none` when the
script is exhausted), the `success` flag as the finally block reads it, and
all percentages passed to the progress callback, in order. -/
structure DlBody where
  result : Option Bool
  successFlag : Bool
  reports : List ℚ
deriving DecidableEq, Repr

/-- The resolved `total_size` of download_url (lines 267-274): the parsed
size hint when available, else the content-length header value.  Both
sources are Python ints and may be negative (`_parse_size_to_bytes` returns
`int(float(cleaned))`, so a size hint like "-1000" parses to -1000). -/
def resolveTotal (sizeHintBytes : Option Int) (r : DlResponse) : Option Int :=
  match sizeHintBytes with
  | some n => some n
  | none => r.contentLength

/-- The initial `last_report_percent` (lines 277-288): -1.0, overwritten to
0.0 when a callback is present and the total is truthy. -/
def initialLastPercent (hasCb : Bool) (total : Option Int) : ℚ :=
  if hasCb && totalTruthy total then 0 else -1

/-- Reports emitted on the success path (lines 330-334): the loop reports,
plus a final 100.0 when a callback is present and no completion was
reported during the loop. -/
def successReports (hasCb : Bool) (lo : LoopOut) : List ℚ :=
  if hasCb && !lo.reportedCompletion then lo.reports ++ [100]
  else lo.reports

/-- The content-mismatch check (lines 336-343): total known and truthy,
fewer than 90% of the bytes received, and an HTML content type. -/
def htmlMismatchCheck (r : DlResponse) (total : Option Int) (bytes : Nat) :
    Bool :=
  match total with
  | some t =>
      totalTruthy (some t) &&
        decide ((bytes : ℚ) < (t : ℚ) * (9 / 10)) &&
        pyStartswith r.contentType "text/html"
  | none => false

/-- The try body plus success-flag accounting of downloader.download_url
(lines 207-348) for a path destination: the rate-limit pre-loop, then
raise_for_status, total-size resolution (`sizeHintBytes` abstracts
`_parse_size_to_bytes(size)`), the initial 0.0 report, the chunk loop, the
final 100.0 report, and the HTML content-mismatch check.  `t0` is
`time.monotonic()` at line 278. -/
def downloadUrlBody (cfg : RetryConfig) (parsedate : String → Option ℚ)
    (now : ℚ) (gets : List DlGet) (sizeHintBytes : Option Int)
    (hasCb : Bool) (t0 : ℚ) : DlBody :=
  match dlFetchLoop cfg parsedate now gets 0 with
  | none => ⟨none, false, []⟩
  | some none => ⟨some false, false, []⟩
  | some (some r) =>
    if 400 ≤ r.status then ⟨some false, false, []⟩
    else
      let total := resolveTotal sizeHintBytes r
      let lo := chunkLoop hasCb total r.chunks 0 (initialLastPercent hasCb total)
        t0 false
      let headReports : List ℚ := if hasCb then [0] else []
      if lo.cancelled then ⟨some false, false, headReports ++ lo.reports⟩
      else
        -- success = True (line 328); completion report precedes the
        -- content-mismatch check
        if htmlMismatchCheck r total lo.bytes then
          ⟨some false, false, headReports ++ successReports hasCb lo⟩
        else ⟨some true, true, headReports ++ successReports hasCb lo⟩

/-- Observable outcome of download_url for a path destination after the
finally block ran: returned value, whether a file remains at the destination
path, and the reported percentages. -/
structure DlOut where
  result : Option Bool
  fileOnDisk : Bool
  reports : List ℚ
deriving DecidableEq, Repr

/-- downloader.download_url for a filesystem-path destination: the engine
opens (creates) the file, runs the body, and the finally block (lines
349-367) deletes the file exactly when the `success` flag is still false. -/
def download_url (cfg : RetryConfig) (parsedate : String → Option ℚ)
    (now : ℚ) (gets : List DlGet) (sizeHintBytes : Option Int)
    (hasCb : Bool) (t0 : ℚ) : DlOut :=
  let b := downloadUrlBody cfg parsedate now gets sizeHintBytes hasCb t0
  ⟨b.result, b.successFlag, b.reports⟩

/-- A queue mutation performed by the download worker. -/
inductive WorkerAction where
  | setStatus (s : QueueStatus)
  | setDownloadPath (p : String)
deriving DecidableEq, Repr

/-- Outcome of the `_download_book_with_cancellation` step as the worker
observes it: a returned optional path, or an exception escaping the step. -/
inductive DlStepOutcome where
  | ret (path : Option String)
  | exn
deriving DecidableEq, Repr

/-- backend._process_single_download (lines 559-587), with the download step
abstracted by its outcome and the cancel token by the boolean the worker's
`cancel_flag.is_set()` check observes (the token is one-way, and exactly one
of the two checks runs in a given run).  Queue mutations are returned as an
ordered list; the function is total, mirroring the worker boundary that
catches every exception. -/
def _process_single_download (outcome : DlStepOutcome) (cancelSet : Bool) :
    List WorkerAction :=
  WorkerAction.setStatus QueueStatus.DOWNLOADING ::
    match outcome with
    | DlStepOutcome.ret path =>
        if cancelSet then [WorkerAction.setStatus QueueStatus.CANCELLED]
        else
          match path with
          | some p =>
              if p.isEmpty then [WorkerAction.setStatus QueueStatus.ERROR]
              else [WorkerAction.setDownloadPath p,
                    WorkerAction.setStatus QueueStatus.AVAILABLE]
          | none => [WorkerAction.setStatus QueueStatus.ERROR]
    | DlStepOutcome.exn =>
        if cancelSet then [WorkerAction.setStatus QueueStatus.CANCELLED]
        else [WorkerAction.setStatus QueueStatus.ERROR]

/-- The last status a list of worker actions records. -/
def finalStatus (actions : List WorkerAction) : Option QueueStatus :=
  (actions.filterMap fun a =>
    match a with
    | WorkerAction.setStatus s => some s
    | WorkerAction.setDownloadPath _ => none).getLast?

/-- Claim C8: for every BookInfo, the published filename is derived as
follows: when USE_BOOK_TITLE is set, the stem is the title filtered to
alphanumerics plus space, dot and underscore, right-stripped, with the empty
result replaced by "book", followed by "-" and the first 8 hex characters of
MD5(book_id); otherwise the stem is book_id; a "." plus the format is
appended exactly when the format is non-empty.  Stated as: the final path
built by `_build_ingest_paths` is the ingest directory joined with exactly
that filename. -/
theorem build_ingest_paths_filename (md5hex : String → String) (ubt : Bool)
    (ingestDir : String) (book : BookInfo) :
    (_build_ingest_paths md5hex ubt ingestDir book).1 =
      ingestDir ++ "/" ++ specPublishedFilename md5hex ubt book := by
  unfold _build_ingest_paths specPublishedFilename _sanitize_filename formatExtension
  cases hf : book.format with
  | none => cases ubt <;> simp
  | some f =>
      cases ubt <;> by_cases hfe : f = "" <;>
        simp [hfe, String.isEmpty_iff]

/-- Claim C9: the final path and intermediate path computed by duplicate
detection via `_build_ingest_paths` equal the final path and intermediate
`.crdownload` path that the download worker constructs and publishes to for
the same book (worker invoked with `book_id = book.id`, same title and
format, same USE_BOOK_TITLE setting). -/
theorem worker_paths_match_duplicate_detection (md5hex : String → String)
    (ubt : Bool) (tmpDir ingestDir : String) (book : BookInfo) :
    (workerIngestTargets md5hex ubt tmpDir ingestDir book.id book).2.2 =
        (_build_ingest_paths md5hex ubt ingestDir book).1 ∧
      (workerIngestTargets md5hex ubt tmpDir ingestDir book.id book).2.1 =
        (_build_ingest_paths md5hex ubt ingestDir book).2.1 :=
  ⟨rfl, rfl⟩

/-- Counterexample to claim C1 as stated: for a book whose recorded queue
status is AVAILABLE — terminal according to the claim's list — and with
neither path on disk, `detect_duplicate` still reports reason "queued"
instead of falling through to the existence checks.  The source test at
backend.py line 241 excludes only ERROR, DONE and CANCELLED. -/
theorem detect_duplicate_available_cex :
    ¬ (((detect_duplicate (fun _ => "") false "ingest"
            (some QueueStatus.AVAILABLE) none false false
            ⟨"b1", "T", some "epub"⟩).map DuplicateEntry.reason
          = some "queued") ↔
        ∃ s, (some QueueStatus.AVAILABLE : Option QueueStatus) = some s ∧
          s ∉ specTerminalStatuses) := by
  intro h
  have hq : (detect_duplicate (fun _ => "") false "ingest"
      (some QueueStatus.AVAILABLE) none false false
      ⟨"b1", "T", some "epub"⟩).map DuplicateEntry.reason = some "queued" := rfl
  obtain ⟨s, hs, hmem⟩ := h.mp hq
  obtain rfl : QueueStatus.AVAILABLE = s := Option.some.inj hs
  exact hmem (by simp [specTerminalStatuses])

/-- Claim C1 amended: `detect_duplicate` reports reason "queued" exactly
when the recorded status is none of DONE, ERROR, CANCELLED — so AVAILABLE is
treated as still-queued by this check; for DONE, ERROR, CANCELLED or an
absent status it instead falls through to the final-path and
intermediate-path existence checks. -/
theorem detect_duplicate_queued_iff (md5hex : String → String) (ubt : Bool)
    (ingestDir : String) (qs : Option QueueStatus) (qdp : Option String)
    (fe ie : Bool) (book : BookInfo) :
    (((detect_duplicate md5hex ubt ingestDir qs qdp fe ie book).map
          DuplicateEntry.reason = some "queued") ↔
        ∃ s, qs = some s ∧
          s ∉ [QueueStatus.ERROR, QueueStatus.DONE, QueueStatus.CANCELLED])
      ∧ ((∀ s, qs = some s →
            s ∈ [QueueStatus.ERROR, QueueStatus.DONE, QueueStatus.CANCELLED]) →
          (detect_duplicate md5hex ubt ingestDir qs qdp fe ie book).map
              DuplicateEntry.reason =
            if fe then some "on_disk"
            else if ie then some "downloading"
            else none) := by
  cases qs with
  | none => cases fe <;> cases ie <;> simp [detect_duplicate]
  | some s => cases s <;> cases fe <;> cases ie <;> simp [detect_duplicate]

/-- Witness for the amended C1 at concrete inputs: a DOWNLOADING status
yields reason "queued", and a DONE status with the final path present falls
through to "on_disk". -/
theorem detect_duplicate_queued_iff_witness :
    ((detect_duplicate (fun _ => "") false "ingest"
          (some QueueStatus.DOWNLOADING) none false false
          ⟨"b1", "T", some "epub"⟩).map DuplicateEntry.reason = some "queued")
      ∧ ((detect_duplicate (fun _ => "") false "ingest"
            (some QueueStatus.DONE) none true false
            ⟨"b1", "T", some "epub"⟩).map DuplicateEntry.reason
          = some "on_disk") := by
  constructor
  · exact (detect_duplicate_queued_iff (fun _ => "") false "ingest"
        (some QueueStatus.DOWNLOADING) none false false
        ⟨"b1", "T", some "epub"⟩).1.mpr ⟨QueueStatus.DOWNLOADING, rfl, by simp⟩
  · have h := (detect_duplicate_queued_iff (fun _ => "") false "ingest"
        (some QueueStatus.DONE) none true false ⟨"b1", "T", some "epub"⟩).2
      (by intro s hs; cases Option.some.inj hs; simp)
    simpa using h

/-- Claim C4: every run of the worker `_process_single_download` first sets
status DOWNLOADING; if the cancel token is signaled when the download step
returns (or when an exception escapes it), the final status is CANCELLED;
otherwise a returned (truthy) path is recorded via `update_download_path`
and the final status is AVAILABLE, while no path yields ERROR; an exception
escaping the download step yields ERROR when not cancelled.  The model is a
total function: no exception escapes the worker boundary. -/
theorem process_single_download_lifecycle (outcome : DlStepOutcome)
    (cancelSet : Bool) :
    (_process_single_download outcome cancelSet).head? =
        some (WorkerAction.setStatus QueueStatus.DOWNLOADING)
      ∧ (cancelSet = true →
          finalStatus (_process_single_download outcome cancelSet) =
            some QueueStatus.CANCELLED)
      ∧ (cancelSet = false → ∀ p, outcome = DlStepOutcome.ret (some p) →
          p ≠ "" →
          WorkerAction.setDownloadPath p ∈ _process_single_download outcome cancelSet
            ∧ finalStatus (_process_single_download outcome cancelSet) =
                some QueueStatus.AVAILABLE)
      ∧ (cancelSet = false → outcome = DlStepOutcome.ret none →
          finalStatus (_process_single_download outcome cancelSet) =
            some QueueStatus.ERROR)
      ∧ (cancelSet = false → outcome = DlStepOutcome.exn →
          finalStatus (_process_single_download outcome cancelSet) =
            some QueueStatus.ERROR) := by
  cases outcome with
  | ret path =>
      cases path with
      | none => cases cancelSet <;> simp [_process_single_download, finalStatus]
      | some p =>
          cases cancelSet
          · by_cases hp : p = ""
            · simp [_process_single_download, finalStatus, hp]
            · have hpe : p.isEmpty = false := by
                simp only [Bool.eq_false_iff, ne_eq, String.isEmpty_iff]
                exact hp
              simp [_process_single_download, finalStatus, hpe]
          · simp [_process_single_download, finalStatus]
  | exn => cases cancelSet <;> simp [_process_single_download, finalStatus]

/-- Witness for C4 at concrete inputs: an uncancelled run whose download
step returns "/books/x.epub" records the path and ends AVAILABLE, and a
cancelled exception run ends CANCELLED. -/
theorem process_single_download_lifecycle_witness :
    (WorkerAction.setDownloadPath "/books/x.epub" ∈
        _process_single_download (DlStepOutcome.ret (some "/books/x.epub")) false
      ∧ finalStatus
          (_process_single_download (DlStepOutcome.ret (some "/books/x.epub")) false) =
            some QueueStatus.AVAILABLE)
      ∧ finalStatus (_process_single_download DlStepOutcome.exn true) =
          some QueueStatus.CANCELLED := by
  constructor
  · exact (process_single_download_lifecycle
        (DlStepOutcome.ret (some "/books/x.epub")) false).2.2.1 rfl
      "/books/x.epub" rfl (by decide)
  · exact (process_single_download_lifecycle DlStepOutcome.exn true).2.1 rfl

/-- A string accepted by `pyIsdigit` is non-empty. -/
theorem pyIsdigit_ne_empty {s : String} (hdig : pyIsdigit s = true) :
    s.isEmpty = false := by
  rw [Bool.eq_false_iff]
  intro habs
  simp only [pyIsdigit, habs, Bool.not_true, Bool.false_and] at hdig
  exact absurd hdig (by decide)

/-- Evaluation of `_parse_retry_after` on a header whose stripped value is
all digits. -/
theorem parse_retry_after_digits (parsedate : String → Option ℚ) (now : ℚ)
    (h : String) (hdig : pyIsdigit (pyStrip h) = true) :
    _parse_retry_after parsedate now (some h) =
      some ((digitsValue (pyStrip h) : ℚ)) := by
  have hne : h.isEmpty = false := by
    rw [Bool.eq_false_iff]
    intro habs
    rw [String.isEmpty_iff] at habs
    subst habs
    exact absurd hdig (by decide)
  simp [_parse_retry_after, hne, pyIsdigit_ne_empty hdig, hdig]

/-- Evaluation of `_parse_retry_after` on a header whose stripped value is
non-empty, not all digits, and parses as an HTTP-date. -/
theorem parse_retry_after_date (parsedate : String → Option ℚ) (now : ℚ)
    (h : String) (t : ℚ) (htne : pyStrip h ≠ "")
    (hdig : pyIsdigit (pyStrip h) = false)
    (hpd : parsedate (pyStrip h) = some t) :
    _parse_retry_after parsedate now (some h) = some (max (t - now) 0) := by
  have hne : h.isEmpty = false := by
    rw [Bool.eq_false_iff]
    intro habs
    rw [String.isEmpty_iff] at habs
    subst habs
    exact htne rfl
  have htne2 : (pyStrip h).isEmpty = false := by
    rw [Bool.eq_false_iff]
    intro habs
    exact htne ((String.isEmpty_iff _).mp habs)
  simp [_parse_retry_after, hne, htne2, hdig, hpd]

/-- Claim C3: for every 429 or 503 response, the wait before the retry
equals the Retry-After header value when it parses as a non-negative integer
(a stripped all-digits string), `max(0, date − now)` when it parses as an
HTTP-date, and `DEFAULT_SLEEP · 2^k` otherwise, where `k` counts consecutive
rate-limited responses so far; in every case the wait is capped at
`RATE_LIMIT_MAX_SLEEP`.  Both `html_get_page` and `download_url` obtain the
wait from `_rate_limit_wait_details`, which this theorem characterizes. -/
theorem rate_limit_wait_spec (cfg : RetryConfig)
    (parsedate : String → Option ℚ) (now : ℚ) (status : Nat)
    (hdr : Option String) (k : Nat) (hst : status = 429 ∨ status = 503)
    (hD : 0 ≤ cfg.defaultSleep) (hC : 0 ≤ cfg.rateLimitMaxSleep) :
    ∃ w, _rate_limit_wait_details cfg parsedate now status hdr k = some (w, hdr)
      ∧ (∀ h, hdr = some h → pyIsdigit (pyStrip h) = true →
          w = min ((digitsValue (pyStrip h) : ℚ)) cfg.rateLimitMaxSleep)
      ∧ (∀ h t, hdr = some h → pyStrip h ≠ "" → pyIsdigit (pyStrip h) = false →
          parsedate (pyStrip h) = some t →
          w = min (max (t - now) 0) cfg.rateLimitMaxSleep)
      ∧ (_parse_retry_after parsedate now hdr = none →
          w = min (cfg.defaultSleep * 2 ^ k) cfg.rateLimitMaxSleep)
      ∧ w ≤ cfg.rateLimitMaxSleep := by
  have hdet : _rate_limit_wait_details cfg parsedate now status hdr k =
      some (max 0 (min
        (match _parse_retry_after parsedate now hdr with
          | none => cfg.defaultSleep * 2 ^ k
          | some w => w) cfg.rateLimitMaxSleep), hdr) := by
    cases hdr with
    | none => simp [_rate_limit_wait_details, if_pos hst, _parse_retry_after]
    | some h => simp [_rate_limit_wait_details, if_pos hst]
  rcases hp : _parse_retry_after parsedate now hdr with _ | v
  · rw [hp] at hdet
    refine ⟨_, hdet, ?_, ?_, ?_, max_le hC (min_le_right _ _)⟩
    · intro h hh hdig
      rw [hh, parse_retry_after_digits parsedate now h hdig] at hp
      exact absurd hp (by simp)
    · intro h t hh htne hdig hpd
      rw [hh, parse_retry_after_date parsedate now h t htne hdig hpd] at hp
      exact absurd hp (by simp)
    · intro _
      exact max_eq_right (le_min (by positivity) hC)
  · rw [hp] at hdet
    refine ⟨_, hdet, ?_, ?_, ?_, max_le hC (min_le_right _ _)⟩
    · intro h hh hdig
      rw [hh, parse_retry_after_digits parsedate now h hdig] at hp
      obtain rfl := Option.some.inj hp
      exact max_eq_right (le_min (by positivity) hC)
    · intro h t hh htne hdig hpd
      rw [hh, parse_retry_after_date parsedate now h t htne hdig hpd] at hp
      obtain rfl := Option.some.inj hp
      exact max_eq_right (le_min (le_max_right _ _) hC)
    · intro habs
      exact absurd habs (by simp)

/-- Witness for C3 at a concrete input: a 429 response carrying
`Retry-After: 7` under DEFAULT_SLEEP = 1 and RATE_LIMIT_MAX_SLEEP = 10. -/
theorem rate_limit_wait_spec_witness :
    ∃ w, _rate_limit_wait_details ⟨1, 10⟩ (fun _ => none) 0 429 (some "7") 0 =
        some (w, some "7")
      ∧ (∀ h, (some "7" : Option String) = some h → pyIsdigit (pyStrip h) = true →
          w = min ((digitsValue (pyStrip h) : ℚ)) (10 : ℚ))
      ∧ (∀ h t, (some "7" : Option String) = some h → pyStrip h ≠ "" →
          pyIsdigit (pyStrip h) = false → (fun (_ : String) => (none : Option ℚ)) (pyStrip h) = some t →
          w = min (max (t - 0) 0) (10 : ℚ))
      ∧ (_parse_retry_after (fun _ => none) 0 (some "7") = none →
          w = min ((1 : ℚ) * 2 ^ 0) (10 : ℚ))
      ∧ w ≤ (10 : ℚ) :=
  rate_limit_wait_spec ⟨1, 10⟩ (fun _ => none) 0 429 (some "7") 0 (Or.inl rfl)
    (by norm_num) (by norm_num)

/-- A rate-limited status always produces wait details. -/
theorem rate_limit_wait_details_isSome (cfg : RetryConfig)
    (parsedate : String → Option ℚ) (now : ℚ) (status : Nat)
    (hdr : Option String) (k : Nat) (hst : status = 429 ∨ status = 503) :
    (_rate_limit_wait_details cfg parsedate now status hdr k).isSome = true := by
  rw [_rate_limit_wait_details.eq_def, if_pos hst]
  rfl

/-- A non-rate-limited status produces no wait details. -/
theorem rate_limit_wait_details_none (cfg : RetryConfig)
    (parsedate : String → Option ℚ) (now : ℚ) (status : Nat)
    (hdr : Option String) (k : Nat) (hst : ¬ (status = 429 ∨ status = 503)) :
    _rate_limit_wait_details cfg parsedate now status hdr k = none := by
  rw [_rate_limit_wait_details.eq_def, if_neg hst]

/-- Any number of consecutive rate-limited responses followed by a success is
absorbed by the retry loop of html_get_page without touching the retry
budget: the loop returns the success body for any non-negative budget and
any rate-limit counter, given enough fuel. -/
theorem htmlGetPageGo_rate_limited (useCF : Bool) (cfg : RetryConfig)
    (parsedate : String → Option ℚ) (now : ℚ)
    (bypasses : List (Option String)) (rls : List PageResponse)
    (hrls : ∀ r ∈ rls, r.status = 429 ∨ r.status = 503)
    (success : PageResponse) (hs : success.status < 400) :
    ∀ (fuel : Nat) (k : Nat) (retries : Int), rls.length < fuel → 0 ≤ retries →
      (htmlGetPageGo useCF cfg parsedate now fuel
          (rls.map GetEvent.ok ++ [GetEvent.ok success]) bypasses retries k
          false).result = some success.body := by
  induction rls with
  | nil =>
      intro fuel k retries hfuel hret
      obtain ⟨f, rfl⟩ : ∃ f, fuel = f + 1 := ⟨fuel - 1, by omega⟩
      have h1 : ¬ (retries < 0) := not_lt.mpr hret
      have h2 : _rate_limit_wait_details cfg parsedate now success.status
          success.retryAfter k = none :=
        rate_limit_wait_details_none _ _ _ _ _ _ (by omega)
      have h3 : ¬ (400 ≤ success.status) := by omega
      simp [htmlGetPageGo, h1, h2, h3, FetchOutcome.bumpGet]
  | cons r rest ih =>
      intro fuel k retries hfuel hret
      obtain ⟨f, rfl⟩ : ∃ f, fuel = f + 1 := ⟨fuel - 1, by omega⟩
      have h1 : ¬ (retries < 0) := not_lt.mpr hret
      have hr4 : r.status = 429 ∨ r.status = 503 := hrls r (by simp)
      obtain ⟨v, hv⟩ := Option.isSome_iff_exists.mp
        (rate_limit_wait_details_isSome cfg parsedate now r.status r.retryAfter k hr4)
      have hrest : ∀ x ∈ rest, x.status = 429 ∨ x.status = 503 :=
        fun x hx => hrls x (by simp [hx])
      have := ih hrest f (k + 1) retries (by simpa using hfuel) hret
      simp [htmlGetPageGo, h1, hv, FetchOutcome.bumpGet, this]

/-- Claim C5: for every html_get_page call and every finite response script,
a 429/503 response is retried without decrementing the retry budget: after
any number of consecutive rate-limited responses followed by a success, the
call returns the success body, for any non-negative retry budget including
zero. -/
theorem html_get_page_rate_limit_keeps_budget (useCF : Bool)
    (cfg : RetryConfig) (parsedate : String → Option ℚ) (now : ℚ)
    (bypasses : List (Option String)) (rls : List PageResponse)
    (hrls : ∀ r ∈ rls, r.status = 429 ∨ r.status = 503)
    (success : PageResponse) (hs : success.status < 400) (retry : Int)
    (hret : 0 ≤ retry) :
    (html_get_page useCF cfg parsedate now
        (rls.map GetEvent.ok ++ [GetEvent.ok success]) bypasses retry
        false).result = some success.body := by
  rw [html_get_page]
  exact htmlGetPageGo_rate_limited useCF cfg parsedate now bypasses rls hrls
    success hs _ 0 retry (by simp; omega) hret

/-- Witness for C5 at a concrete input: two rate-limited responses followed
by a 200 "ok" under a retry budget of zero. -/
theorem html_get_page_rate_limit_keeps_budget_witness :
    (html_get_page false ⟨1, 10⟩ (fun _ => none) 0
        ([⟨429, some "2", ""⟩, ⟨503, none, ""⟩].map GetEvent.ok ++
          [GetEvent.ok ⟨200, none, "ok"⟩]) [] 0 false).result = some "ok" :=
  html_get_page_rate_limit_keeps_budget false ⟨1, 10⟩ (fun _ => none) 0 []
    [⟨429, some "2", ""⟩, ⟨503, none, ""⟩] (by decide)
    ⟨200, none, "ok"⟩ (by decide) 0 (by decide)

/-- Claim C6: with remaining retry budget > 0, a 403 response on a
non-bypass attempt makes all subsequent attempts of the call use the bypass
fetcher, resets the consecutive rate-limit counter to zero, and decrements
the retry budget by one (first conjunct, a step equation of the retry loop);
and with retry = 1, a 403 followed by a successful bypass returns the bypass
body with exactly one plain HTTP GET and exactly one bypass call (second
conjunct, with USE_CF_BYPASS configured). -/
theorem html_get_page_403_escalates_to_bypass :
    (∀ (useCF : Bool) (cfg : RetryConfig) (parsedate : String → Option ℚ)
        (now : ℚ) (fuel : Nat) (gets : List GetEvent)
        (bypasses : List (Option String)) (retries : Int) (k : Nat)
        (r : PageResponse), r.status = 403 → 0 < retries →
        htmlGetPageGo useCF cfg parsedate now (fuel + 1)
            (GetEvent.ok r :: gets) bypasses retries k false =
          FetchOutcome.bumpGet (htmlGetPageGo useCF cfg parsedate now fuel
            gets bypasses (retries - 1) 0 true))
      ∧ (∀ (cfg : RetryConfig) (parsedate : String → Option ℚ) (now : ℚ)
          (hdr : Option String) (body page : String),
          html_get_page true cfg parsedate now [GetEvent.ok ⟨403, hdr, body⟩]
              [some page] 1 false = ⟨some page, 1, 1⟩) := by
  constructor
  · intro useCF cfg parsedate now fuel gets bypasses retries k r hr hret
    have h1 : ¬ (retries < 0) := by omega
    have h2 : _rate_limit_wait_details cfg parsedate now 403 r.retryAfter
        k = none :=
      rate_limit_wait_details_none _ _ _ _ _ _ (by omega)
    have h3 : (400 : Nat) ≤ r.status := by omega
    have h4 : retries ≠ 0 := by omega
    have h5 : r.status ≠ 404 := by omega
    simp [htmlGetPageGo, h1, h2, h3, h4, h5, hr]
  · intro cfg parsedate now hdr body page
    have h2 : _rate_limit_wait_details cfg parsedate now 403 hdr 0 = none :=
      rate_limit_wait_details_none _ _ _ _ _ _ (by omega)
    simp [html_get_page, htmlGetPageGo, h2, FetchOutcome.bumpGet,
      FetchOutcome.bumpBypass]

/-- Witness for C6 at concrete inputs: the step equation applied to a 403
response with budget 1, and the concrete 403-then-bypass scenario. -/
theorem html_get_page_403_escalates_to_bypass_witness :
    (htmlGetPageGo true ⟨1, 10⟩ (fun _ => none) 0 (2 + 1)
          (GetEvent.ok ⟨403, none, ""⟩ :: []) [some "page"] 1 0 false =
        FetchOutcome.bumpGet (htmlGetPageGo true ⟨1, 10⟩ (fun _ => none) 0 2
          [] [some "page"] (1 - 1) 0 true))
      ∧ html_get_page true ⟨1, 10⟩ (fun _ => none) 0
          [GetEvent.ok ⟨403, none, ""⟩] [some "page"] 1 false =
        ⟨some "page", 1, 1⟩ :=
  ⟨html_get_page_403_escalates_to_bypass.1 true ⟨1, 10⟩ (fun _ => none) 0 2
      [] [some "page"] 1 0 ⟨403, none, ""⟩ rfl (by decide),
    html_get_page_403_escalates_to_bypass.2 ⟨1, 10⟩ (fun _ => none) 0 none
      "" "page"⟩

/-- Whenever the body of download_url returns false, the `success` flag the
finally block consults is still false. -/
theorem downloadUrlBody_false_flag (cfg : RetryConfig)
    (parsedate : String → Option ℚ) (now : ℚ) (gets : List DlGet)
    (sizeHintBytes : Option Int) (hasCb : Bool) (t0 : ℚ)
    (h : (downloadUrlBody cfg parsedate now gets sizeHintBytes hasCb t0).result =
      some false) :
    (downloadUrlBody cfg parsedate now gets sizeHintBytes hasCb t0).successFlag =
      false := by
  rcases hfl : dlFetchLoop cfg parsedate now gets 0 with _ | _ | r
  · simp [downloadUrlBody, hfl]
  · simp [downloadUrlBody, hfl]
  · by_cases hst : 400 ≤ r.status
    · simp [downloadUrlBody, hfl, hst]
    · simp only [downloadUrlBody, hfl, hst, if_false] at h ⊢
      split_ifs at h ⊢ <;> simp_all

/-- The computed percentage never exceeds 100. -/
theorem pct_le_100 (t : Int) (b : Nat) : pct t b ≤ 100 :=
  min_le_right _ _

/-- The computed percentage is strictly positive once a byte has been
written against a positive total. -/
theorem pct_pos (t : Int) (b : Nat) (ht : 0 < t) (hb : 0 < b) :
    0 < pct t b := by
  refine lt_min ?_ (by norm_num)
  have ht2 : (0 : ℚ) < (t : ℚ) := by exact_mod_cast ht
  have hb2 : (0 : ℚ) < (b : ℚ) := by exact_mod_cast hb
  positivity

/-- The computed percentage is never zero for a non-zero total and a
positive byte count: positive totals give positive percentages, negative
totals give negative ones. -/
theorem pct_ne_zero (t : Int) (b : Nat) (ht : t ≠ 0) (hb : 0 < b) :
    pct t b ≠ 0 := by
  rcases lt_or_gt_of_ne ht with hneg | hpos
  · have hb2 : (0 : ℚ) < (b : ℚ) := by exact_mod_cast hb
    have ht2 : (t : ℚ) < 0 := by exact_mod_cast hneg
    have hdiv : (b : ℚ) / (t : ℚ) < 0 := div_neg_of_pos_of_neg hb2 ht2
    have hprod : (b : ℚ) / (t : ℚ) * 100 < 0 :=
      mul_neg_of_neg_of_pos hdiv (by norm_num)
    exact ne_of_lt (lt_of_le_of_lt (min_le_left _ _) hprod)
  · exact ne_of_gt (pct_pos t b hpos hb)

/-- The computed percentage is monotone in the byte count when the total is
positive. -/
theorem pct_mono (t : Int) {b1 b2 : Nat} (ht : 0 < t) (h : b1 ≤ b2) :
    pct t b1 ≤ pct t b2 := by
  refine min_le_min ?_ le_rfl
  have ht2 : (0 : ℚ) < (t : ℚ) := by exact_mod_cast ht
  have h2 : (b1 : ℚ) ≤ b2 := by exact_mod_cast h
  gcongr

/-- Without a callback or with a falsy total, the chunk loop reports
nothing. -/
theorem chunkLoop_reports_nil (hasCb : Bool) (total : Option Int)
    (h : hasCb = false ∨ totalTruthy total = false) :
    ∀ (cs : List DlChunk) (bytes : Nat) (lastP lastT : ℚ) (rc : Bool),
      (chunkLoop hasCb total cs bytes lastP lastT rc).reports = [] := by
  intro cs
  induction cs with
  | nil => intro bytes lastP lastT rc; simp [chunkLoop]
  | cons c cs ih =>
      intro bytes lastP lastT rc
      by_cases hcb : c.cancelBefore
      · simp [chunkLoop, hcb]
      · by_cases hsz : c.size = 0
        · simpa [chunkLoop, hcb, hsz] using ih bytes lastP lastT rc
        · by_cases hca : c.cancelAfter
          · simp [chunkLoop, hcb, hsz, hca]
          · rcases total with _ | t
            · simpa [chunkLoop, hcb, hsz, hca] using
                ih (bytes + c.size) lastP lastT rc
            · have hcond : (hasCb && totalTruthy (some t)) = false := by
                rcases h with h | h
                · simp [h]
                · simp [h]
              simpa [chunkLoop, hcb, hsz, hca, hcond] using
                ih (bytes + c.size) lastP lastT rc

/-- With a callback, every report of the chunk loop is a percentage of a
positive byte count against a non-zero total, hence non-zero and at most
100 — for any total, including negative ones. -/
theorem chunkLoop_reports_weak (total : Option Int) :
    ∀ (cs : List DlChunk) (bytes : Nat) (lastP lastT : ℚ) (rc : Bool),
      ∀ x ∈ (chunkLoop true total cs bytes lastP lastT rc).reports,
        x ≠ 0 ∧ x ≤ 100 := by
  intro cs
  induction cs with
  | nil => intro bytes lastP lastT rc x hx; simp [chunkLoop] at hx
  | cons c cs ih =>
      intro bytes lastP lastT rc x hx
      by_cases hcb : c.cancelBefore
      · simp [chunkLoop, hcb] at hx
      · by_cases hsz : c.size = 0
        · rw [show chunkLoop true total (c :: cs) bytes lastP lastT rc =
              chunkLoop true total cs bytes lastP lastT rc by
            simp [chunkLoop, hcb, hsz]] at hx
          exact ih bytes lastP lastT rc x hx
        · by_cases hca : c.cancelAfter
          · simp [chunkLoop, hcb, hsz, hca] at hx
          · rcases total with _ | t
            · simp only [chunkLoop, hcb, hsz, hca, Bool.false_eq_true,
                ite_false, ite_true] at hx
              exact ih (bytes + c.size) lastP lastT rc x hx
            · by_cases htt : totalTruthy (some t) = true
              · have htne : t ≠ 0 := by
                  have := htt
                  rw [totalTruthy] at this
                  exact of_decide_eq_true this
                by_cases hrep : 100 ≤ pct t (bytes + c.size) ∨
                    1 ≤ pct t (bytes + c.size) - lastP ∨
                    (1 / 4 : ℚ) ≤ c.now - lastT
                · simp only [chunkLoop, hcb, hsz, hca, htt, hrep,
                    Bool.true_and, Bool.false_eq_true, ite_false, ite_true,
                    List.mem_cons] at hx
                  rcases hx with rfl | hx
                  · exact ⟨pct_ne_zero t (bytes + c.size) htne (by omega),
                      pct_le_100 _ _⟩
                  · exact ih (bytes + c.size) (pct t (bytes + c.size)) c.now
                      (rc || decide (100 ≤ pct t (bytes + c.size))) x hx
                · simp only [chunkLoop, hcb, hsz, hca, htt, hrep,
                    Bool.true_and, Bool.false_eq_true, ite_false,
                    ite_true] at hx
                  exact ih (bytes + c.size) lastP lastT rc x hx
              · have htf : totalTruthy (some t) = false :=
                  Bool.eq_false_iff.mpr htt
                simp only [chunkLoop, hcb, hsz, hca, htf, Bool.and_false,
                  Bool.false_eq_true, ite_false, ite_true] at hx
                exact ih (bytes + c.size) lastP lastT rc x hx

/-- Reports emitted by the chunk loop with a callback and a positive total:
every report is at least the percentage at loop entry, strictly positive,
at most 100, and the report sequence is monotone non-decreasing. -/
theorem chunkLoop_reports_spec (t : Int) (ht : 0 < t) :
    ∀ (cs : List DlChunk) (bytes : Nat) (lastP lastT : ℚ) (rc : Bool),
      (∀ x ∈ (chunkLoop true (some t) cs bytes lastP lastT rc).reports,
          pct t bytes ≤ x ∧ 0 < x ∧ x ≤ 100)
        ∧ List.Chain' (· ≤ ·)
            (chunkLoop true (some t) cs bytes lastP lastT rc).reports := by
  have htt : totalTruthy (some t) = true := by
    rw [totalTruthy]
    exact decide_eq_true (by omega)
  intro cs
  induction cs with
  | nil => intro bytes lastP lastT rc; simp [chunkLoop]
  | cons c cs ih =>
      intro bytes lastP lastT rc
      by_cases hcb : c.cancelBefore
      · simp [chunkLoop, hcb]
      · by_cases hsz : c.size = 0
        · have := ih bytes lastP lastT rc
          simpa [chunkLoop, hcb, hsz] using this
        · by_cases hca : c.cancelAfter
          · simp [chunkLoop, hcb, hsz, hca]
          · have hmono : pct t bytes ≤ pct t (bytes + c.size) :=
              pct_mono t ht (Nat.le_add_right _ _)
            have hpos : 0 < pct t (bytes + c.size) :=
              pct_pos t (bytes + c.size) ht (by omega)
            by_cases hrep : 100 ≤ pct t (bytes + c.size) ∨
                1 ≤ pct t (bytes + c.size) - lastP ∨
                (1 / 4 : ℚ) ≤ c.now - lastT
            · have hrest := ih (bytes + c.size)
                (pct t (bytes + c.size)) c.now
                (rc || decide (100 ≤ pct t (bytes + c.size)))
              constructor
              · intro x hx
                simp only [chunkLoop, hcb, hsz, hca, htt, hrep, Bool.true_and,
                  Bool.false_eq_true, ite_false, ite_true,
                  List.mem_cons] at hx
                rcases hx with rfl | hx
                · exact ⟨hmono, hpos, pct_le_100 _ _⟩
                · obtain ⟨h1, h2, h3⟩ := hrest.1 x hx
                  exact ⟨le_trans hmono h1, h2, h3⟩
              · simp only [chunkLoop, hcb, hsz, hca, htt, hrep, Bool.true_and,
                  Bool.false_eq_true, ite_false, ite_true]
                rw [List.chain'_cons']
                refine ⟨?_, hrest.2⟩
                intro y hy
                exact (hrest.1 y (List.mem_of_mem_head? hy)).1
            · have hrest := ih (bytes + c.size) lastP lastT rc
              constructor
              · intro x hx
                simp only [chunkLoop, hcb, hsz, hca, htt, hrep, Bool.true_and,
                  Bool.false_eq_true, ite_false, ite_true] at hx
                obtain ⟨h1, h2, h3⟩ := hrest.1 x hx
                exact ⟨le_trans hmono h1, h2, h3⟩
              · simp only [chunkLoop, hcb, hsz, hca, htt, hrep, Bool.true_and,
                  Bool.false_eq_true, ite_false, ite_true]
                exact hrest.2

/-- When every known total is positive, the chunk loop reports are positive,
bounded by 100 and monotone. -/
theorem loop_reports_chain_of_pos (total : Option Int)
    (hpos : ∀ t, total = some t → 0 < t) (cs : List DlChunk) (bytes : Nat)
    (lastP lastT : ℚ) (rc : Bool) :
    (∀ x ∈ (chunkLoop true total cs bytes lastP lastT rc).reports,
        0 < x ∧ x ≤ 100)
      ∧ List.Chain' (· ≤ ·)
          (chunkLoop true total cs bytes lastP lastT rc).reports := by
  rcases total with _ | t
  · rw [chunkLoop_reports_nil true none (Or.inr rfl)]
    simp
  · have ht := hpos t rfl
    have h := chunkLoop_reports_spec t ht cs bytes lastP lastT rc
    exact ⟨fun x hx => ⟨(h.1 x hx).2.1, (h.1 x hx).2.2⟩, h.2⟩

/-- The success-path report list preserves positivity, the 100 bound, and
monotonicity. -/
theorem successReports_facts (lo : LoopOut)
    (hmem : ∀ x ∈ lo.reports, 0 < x ∧ x ≤ 100)
    (hchain : List.Chain' (· ≤ ·) lo.reports) :
    (∀ x ∈ successReports true lo, 0 < x ∧ x ≤ 100)
      ∧ List.Chain' (· ≤ ·) (successReports true lo) := by
  by_cases hrc : lo.reportedCompletion
  · simpa [successReports, hrc] using ⟨hmem, hchain⟩
  · rw [successReports]
    simp only [hrc, Bool.not_false, Bool.and_true, Bool.true_and, ite_true,
      Bool.and_self]
    constructor
    · intro x hx
      rcases List.mem_append.mp hx with hx | hx
      · exact hmem x hx
      · obtain rfl : x = 100 := by simpa using hx
        exact ⟨by norm_num, le_rfl⟩
    · rw [List.chain'_append]
      refine ⟨hchain, List.chain'_singleton _, ?_⟩
      intro x hx y hy
      obtain rfl : y = 100 := by simpa [eq_comm] using hy
      exact (hmem x (List.mem_of_mem_getLast? hx)).2

/-- The success-path report list preserves the weak facts: every element is
non-zero and at most 100. -/
theorem successReports_weak (lo : LoopOut)
    (hmem : ∀ x ∈ lo.reports, x ≠ 0 ∧ x ≤ 100) :
    ∀ x ∈ successReports true lo, x ≠ 0 ∧ x ≤ 100 := by
  intro x hx
  by_cases hrc : lo.reportedCompletion
  · rw [successReports] at hx
    simp only [hrc, Bool.not_true, Bool.and_false, ite_false,
      Bool.false_eq_true] at hx
    exact hmem x hx
  · rw [successReports] at hx
    simp only [hrc, Bool.not_false, Bool.and_true, Bool.true_and, ite_true,
      Bool.and_self] at hx
    rcases List.mem_append.mp hx with hx | hx
    · exact hmem x hx
    · obtain rfl : x = 100 := by simpa using hx
      exact ⟨by norm_num, le_rfl⟩

/-- Prepending the initial 0.0 to non-zero bounded reports gives the
head-shape and bound parts of claim C7. -/
theorem cons_zero_shape (rs : List ℚ) (hmem : ∀ x ∈ rs, x ≠ 0 ∧ x ≤ 100) :
    (((0 : ℚ) :: rs) = []
        ∨ (((0 : ℚ) :: rs).head? = some 0 ∧ ∀ x ∈ ((0 : ℚ) :: rs).tail, x ≠ 0))
      ∧ ∀ x ∈ (0 : ℚ) :: rs, x ≤ 100 := by
  refine ⟨Or.inr ⟨rfl, ?_⟩, ?_⟩
  · intro x hx
    exact (hmem x (by simpa using hx)).1
  · intro x hx
    rcases List.mem_cons.mp hx with rfl | hx
    · norm_num
    · exact (hmem x hx).2

/-- Prepending the initial 0.0 to positive monotone reports preserves
monotonicity. -/
theorem cons_zero_chain (rs : List ℚ) (hpos : ∀ x ∈ rs, 0 < x)
    (hchain : List.Chain' (· ≤ ·) rs) :
    List.Chain' (· ≤ ·) ((0 : ℚ) :: rs) := by
  rw [List.chain'_cons']
  exact ⟨fun y hy => le_of_lt (hpos y (List.mem_of_mem_head? hy)), hchain⟩

/-- The response the rate-limit pre-loop lands on comes from the script. -/
theorem dlFetchLoop_mem (cfg : RetryConfig) (parsedate : String → Option ℚ)
    (now : ℚ) :
    ∀ (gets : List DlGet) (k : Nat) (r : DlResponse),
      dlFetchLoop cfg parsedate now gets k = some (some r) →
      DlGet.ok r ∈ gets := by
  intro gets
  induction gets with
  | nil => intro k r h; simp [dlFetchLoop] at h
  | cons g gs ih =>
      intro k r h
      cases g with
      | exc => simp [dlFetchLoop] at h
      | ok r2 =>
          rcases hd : _rate_limit_wait_details cfg parsedate now r2.status
              r2.retryAfter k with _ | v
          · simp only [dlFetchLoop, hd] at h
            obtain rfl : r2 = r := by simpa using h
            exact List.mem_cons_self _ _
          · simp only [dlFetchLoop, hd] at h
            exact List.mem_cons_of_mem _ (ih (k + 1) r h)

/-- If the size hint and the landed response carry only positive totals,
the resolved total is positive whenever known. -/
theorem resolveTotal_pos (sizeHintBytes : Option Int) (r : DlResponse)
    (hshb : ∀ t, sizeHintBytes = some t → 0 < t)
    (hcl : ∀ t, r.contentLength = some t → 0 < t) :
    ∀ t, resolveTotal sizeHintBytes r = some t → 0 < t := by
  intro t ht
  rcases sizeHintBytes with _ | n
  · exact hcl t (by simpa [resolveTotal] using ht)
  · obtain rfl : n = t := by simpa [resolveTotal] using ht
    exact hshb n rfl

/-- Counterexample to claim C7 as stated: with a parsed size hint of -1000
(the source accepts `size = "-1000"`: `_parse_size_to_bytes` returns
`int(float("-1000")) = -1000`, which is truthy), two 10-byte chunks arriving
0.25 s apart make the time-based trigger report the strictly decreasing
percentages -1 and -2 after the initial 0.0, so the reported sequence
[0, -1, -2, 100] is not monotone non-decreasing although the total size is
known. -/
theorem download_url_progress_reports_cex :
    (download_url ⟨1, 10⟩ (fun _ => none) 0
        [DlGet.ok ⟨200, none, none, "application/pdf",
          [⟨10, 1, false, false⟩, ⟨10, 2, false, false⟩]⟩]
        (some (-1000)) true 0).reports = [0, -1, -2, 100]
      ∧ ¬ List.Chain' (· ≤ ·)
          (download_url ⟨1, 10⟩ (fun _ => none) 0
            [DlGet.ok ⟨200, none, none, "application/pdf",
              [⟨10, 1, false, false⟩, ⟨10, 2, false, false⟩]⟩]
            (some (-1000)) true 0).reports := by
  have htt : totalTruthy (some (-1000 : Int)) = true := by decide
  have hpct1 : pct (-1000) 10 = -1 := by
    have h1 : ((10 : Nat) : ℚ) / (((-1000) : Int) : ℚ) * 100 = -1 := by
      norm_num
    rw [pct, h1, min_eq_left (by norm_num)]
  have hpct2 : pct (-1000) 20 = -2 := by
    have h1 : ((20 : Nat) : ℚ) / (((-1000) : Int) : ℚ) * 100 = -2 := by
      norm_num
    rw [pct, h1, min_eq_left (by norm_num)]
  have hd1 : (decide (100 ≤ pct (-1000) 10)) = false := by
    rw [hpct1]
    exact decide_eq_false (by norm_num)
  have hd2 : (decide (100 ≤ pct (-1000) 20)) = false := by
    rw [hpct2]
    exact decide_eq_false (by norm_num)
  have hcond2 : 100 ≤ pct (-1000) 20 ∨
      1 ≤ pct (-1000) 20 - pct (-1000) 10 ∨ (1 / 4 : ℚ) ≤ (2 : ℚ) - 1 :=
    Or.inr (Or.inr (by norm_num))
  have hloop2 : chunkLoop true (some (-1000)) [⟨10, 2, false, false⟩] 10
      (pct (-1000) 10) 1 false =
      ⟨false, 20, pct (-1000) 20, 2, false, [pct (-1000) 20]⟩ := by
    simp [chunkLoop, htt, hcond2, hd2]
    norm_num
  have hcond1 : 100 ≤ pct (-1000) 10 ∨ 1 ≤ pct (-1000) 10 - 0 ∨
      (1 / 4 : ℚ) ≤ (1 : ℚ) - 0 := Or.inr (Or.inr (by norm_num))
  have hloop1 : chunkLoop true (some (-1000))
      [⟨10, 1, false, false⟩, ⟨10, 2, false, false⟩] 0 0 0 false =
      ⟨false, 20, pct (-1000) 20, 2, false,
        [pct (-1000) 10, pct (-1000) 20]⟩ := by
    simp [chunkLoop, htt, hcond1, hd1, hcond2, hd2, hloop2]
    norm_num
  have hfetch : dlFetchLoop ⟨1, 10⟩ (fun _ => none) 0
      [DlGet.ok ⟨200, none, none, "application/pdf",
        [⟨10, 1, false, false⟩, ⟨10, 2, false, false⟩]⟩] 0 =
      some (some ⟨200, none, none, "application/pdf",
        [⟨10, 1, false, false⟩, ⟨10, 2, false, false⟩]⟩) := by
    simp [dlFetchLoop,
      rate_limit_wait_details_none _ _ _ _ _ _
        (by decide : ¬ ((200 : Nat) = 429 ∨ (200 : Nat) = 503))]
  have hmmf : htmlMismatchCheck
      ⟨200, none, none, "application/pdf",
        [⟨10, 1, false, false⟩, ⟨10, 2, false, false⟩]⟩
      (some (-1000)) 20 = false := by
    have hdec : (decide ((20 : ℚ) < (((-1000) : Int) : ℚ) * (9 / 10))) =
        false := decide_eq_false (by norm_num)
    simp [htmlMismatchCheck, hdec]
    exact fun _ h => absurd h (by norm_num)
  have hbody : downloadUrlBody ⟨1, 10⟩ (fun _ => none) 0
      [DlGet.ok ⟨200, none, none, "application/pdf",
        [⟨10, 1, false, false⟩, ⟨10, 2, false, false⟩]⟩]
      (some (-1000)) true 0 =
      ⟨some true, true, [0, pct (-1000) 10, pct (-1000) 20, 100]⟩ := by
    simp [downloadUrlBody, hfetch, resolveTotal, initialLastPercent, htt,
      hloop1, hmmf, successReports,
      (by decide : ¬ ((400 : Nat) ≤ 200))]
  have hout : download_url ⟨1, 10⟩ (fun _ => none) 0
      [DlGet.ok ⟨200, none, none, "application/pdf",
        [⟨10, 1, false, false⟩, ⟨10, 2, false, false⟩]⟩]
      (some (-1000)) true 0 =
      ⟨some true, true, [0, pct (-1000) 10, pct (-1000) 20, 100]⟩ := by
    rw [download_url, hbody]
  rw [hout, hpct1, hpct2]
  refine ⟨rfl, ?_⟩
  intro hch
  rw [List.chain'_cons] at hch
  have := hch.1
  norm_num at this

/-- Claim C7 amended: for every download_url call given a progress
callback, the callback is invoked with 0.0 at most once and before any
other report (the report list is empty or starts with 0 and every later
report is non-zero), and no reported percentage exceeds 100; the reported
percentages are monotone non-decreasing whenever every total the call can
resolve — the parsed size hint, or the landed response content-length — is
positive (a negative parsed total, which Python treats as truthy, yields
decreasing time-triggered reports instead). -/
theorem download_url_progress_reports (cfg : RetryConfig)
    (parsedate : String → Option ℚ) (now : ℚ) (gets : List DlGet)
    (sizeHintBytes : Option Int) (t0 : ℚ) :
    ((download_url cfg parsedate now gets sizeHintBytes true t0).reports = []
        ∨ ((download_url cfg parsedate now gets sizeHintBytes true
              t0).reports.head? = some 0
            ∧ ∀ x ∈ (download_url cfg parsedate now gets sizeHintBytes true
                t0).reports.tail, x ≠ 0))
      ∧ (∀ x ∈ (download_url cfg parsedate now gets sizeHintBytes true
            t0).reports, x ≤ 100)
      ∧ ((∀ t, sizeHintBytes = some t → 0 < t) →
          (∀ r, DlGet.ok r ∈ gets → ∀ t, r.contentLength = some t → 0 < t) →
          List.Chain' (· ≤ ·)
            (download_url cfg parsedate now gets sizeHintBytes true
              t0).reports) := by
  have hb : (download_url cfg parsedate now gets sizeHintBytes true t0).reports =
      (downloadUrlBody cfg parsedate now gets sizeHintBytes true t0).reports := rfl
  rw [hb]
  rcases hfl : dlFetchLoop cfg parsedate now gets 0 with _ | _ | r
  · simp [downloadUrlBody, hfl]
  · simp [downloadUrlBody, hfl]
  · by_cases hst : 400 ≤ r.status
    · simp [downloadUrlBody, hfl, hst]
    · have hweak := chunkLoop_reports_weak (resolveTotal sizeHintBytes r)
        r.chunks 0 (initialLastPercent true (resolveTotal sizeHintBytes r))
        t0 false
      by_cases hc : (chunkLoop true (resolveTotal sizeHintBytes r) r.chunks 0
          (initialLastPercent true (resolveTotal sizeHintBytes r)) t0
          false).cancelled
      · have hrep : (downloadUrlBody cfg parsedate now gets sizeHintBytes true
            t0).reports =
              (0 : ℚ) :: (chunkLoop true (resolveTotal sizeHintBytes r)
                r.chunks 0
                (initialLastPercent true (resolveTotal sizeHintBytes r)) t0
                false).reports := by
          simp [downloadUrlBody, hfl, hst, hc]
        rw [hrep]
        obtain ⟨hshape, hle⟩ := cons_zero_shape _ hweak
        refine ⟨hshape, hle, ?_⟩
        intro hshb hcl
        obtain ⟨hpos, hchain⟩ := loop_reports_chain_of_pos
          (resolveTotal sizeHintBytes r)
          (resolveTotal_pos sizeHintBytes r hshb
            (hcl r (dlFetchLoop_mem cfg parsedate now gets 0 r hfl)))
          r.chunks 0 (initialLastPercent true (resolveTotal sizeHintBytes r))
          t0 false
        exact cons_zero_chain _ (fun x hx => (hpos x hx).1) hchain
      · have hrep : (downloadUrlBody cfg parsedate now gets sizeHintBytes true
            t0).reports =
              (0 : ℚ) :: successReports true
                (chunkLoop true (resolveTotal sizeHintBytes r) r.chunks 0
                  (initialLastPercent true (resolveTotal sizeHintBytes r)) t0
                  false) := by
          by_cases hmm : htmlMismatchCheck r (resolveTotal sizeHintBytes r)
              (chunkLoop true (resolveTotal sizeHintBytes r) r.chunks 0
                (initialLastPercent true (resolveTotal sizeHintBytes r)) t0
                false).bytes <;>
            simp [downloadUrlBody, hfl, hst, hc, hmm]
        rw [hrep]
        obtain ⟨hshape, hle⟩ := cons_zero_shape _ (successReports_weak _ hweak)
        refine ⟨hshape, hle, ?_⟩
        intro hshb hcl
        obtain ⟨hpos, hchain⟩ := loop_reports_chain_of_pos
          (resolveTotal sizeHintBytes r)
          (resolveTotal_pos sizeHintBytes r hshb
            (hcl r (dlFetchLoop_mem cfg parsedate now gets 0 r hfl)))
          r.chunks 0 (initialLastPercent true (resolveTotal sizeHintBytes r))
          t0 false
        obtain ⟨hpos2, hchain2⟩ := successReports_facts _ hpos hchain
        exact cons_zero_chain _ (fun x hx => (hpos2 x hx).1) hchain2

/-- Witness for the amended C7 at a concrete input: a known positive total
(content-length 1000) with one chunk; the monotonicity premises are
discharged concretely. -/
theorem download_url_progress_reports_witness :
    List.Chain' (· ≤ ·)
        (download_url ⟨1, 10⟩ (fun _ => none) 0
          [DlGet.ok ⟨200, none, some 1000, "text/html", [⟨10, 1, false, false⟩]⟩]
          none true 0).reports := by
  refine (download_url_progress_reports ⟨1, 10⟩ (fun _ => none) 0
      [DlGet.ok ⟨200, none, some 1000, "text/html", [⟨10, 1, false, false⟩]⟩]
      none 0).2.2 ?_ ?_
  · intro t ht
    exact absurd ht (by simp)
  · intro r hr t ht
    obtain rfl : r = (⟨200, none, some 1000, "text/html",
        [⟨10, 1, false, false⟩]⟩ : DlResponse) := by simpa using hr
    obtain rfl : (1000 : Int) = t := by simpa using ht
    norm_num

/-- Claim C10: there is an input — a response whose total size is known and
whose Content-Type starts with text/html, delivering fewer than 90% of the
total bytes without cancellation — on which download_url reports 100.0 to
the progress callback and nevertheless returns false: the completion report
at line 332 precedes the content-mismatch check at line 336. -/
theorem download_url_completion_report_despite_failure :
    (download_url ⟨1, 10⟩ (fun _ => none) 0
        [DlGet.ok ⟨200, none, some 1000, "text/html", [⟨10, 1, false, false⟩]⟩]
        none true 0).result = some false
      ∧ (100 : ℚ) ∈ (download_url ⟨1, 10⟩ (fun _ => none) 0
          [DlGet.ok ⟨200, none, some 1000, "text/html", [⟨10, 1, false, false⟩]⟩]
          none true 0).reports := by
  have htt : totalTruthy (some (1000 : Int)) = true := by decide
  have hpct : pct 1000 10 = 1 := by
    have h1 : ((10 : Nat) : ℚ) / ((1000 : Int) : ℚ) * 100 = 1 := by norm_num
    rw [pct, h1, min_eq_left (by norm_num)]
  have hd : (decide (100 ≤ pct 1000 10)) = false := by
    rw [hpct]
    exact decide_eq_false (by norm_num)
  have hcond : 100 ≤ pct 1000 10 ∨ 1 ≤ pct 1000 10 - 0 ∨
      (1 / 4 : ℚ) ≤ (1 : ℚ) - 0 := Or.inr (Or.inr (by norm_num))
  have hloop : chunkLoop true (some 1000) [⟨10, 1, false, false⟩] 0 0 0 false =
      ⟨false, 10, pct 1000 10, 1, false, [pct 1000 10]⟩ := by
    simp [chunkLoop, htt, hcond, hd]
    norm_num
  have hfetch : dlFetchLoop ⟨1, 10⟩ (fun _ => none) 0
      [DlGet.ok ⟨200, none, some 1000, "text/html", [⟨10, 1, false, false⟩]⟩]
      0 = some (some ⟨200, none, some 1000, "text/html",
        [⟨10, 1, false, false⟩]⟩) := by
    simp [dlFetchLoop,
      rate_limit_wait_details_none _ _ _ _ _ _
        (by decide : ¬ ((200 : Nat) = 429 ∨ (200 : Nat) = 503))]
  have hmm : htmlMismatchCheck
      ⟨200, none, some 1000, "text/html", [⟨10, 1, false, false⟩]⟩
      (some 1000) 10 = true := by
    simp [htmlMismatchCheck, totalTruthy, pyStartswith]
    norm_num
  have hbody : downloadUrlBody ⟨1, 10⟩ (fun _ => none) 0
      [DlGet.ok ⟨200, none, some 1000, "text/html", [⟨10, 1, false, false⟩]⟩]
      none true 0 = ⟨some false, false, [0, pct 1000 10, 100]⟩ := by
    simp [downloadUrlBody, hfetch, resolveTotal, initialLastPercent,
      totalTruthy, hloop, hmm, successReports,
      (by decide : ¬ ((400 : Nat) ≤ 200))]
  have hout : download_url ⟨1, 10⟩ (fun _ => none) 0
      [DlGet.ok ⟨200, none, some 1000, "text/html", [⟨10, 1, false, false⟩]⟩]
      none true 0 = ⟨some false, false, [0, pct 1000 10, 100]⟩ := by
    rw [download_url, hbody]
  rw [hout]
  exact ⟨rfl, by simp⟩

/-- Claim C2: for every download_url call whose destination is a filesystem
path (so the engine opened the file itself), whenever the call returns
false — cancellation mid-stream, an HTTP error status, a request exception,
or the HTML content-mismatch check — no file remains at the destination
path after the call returns. -/
theorem download_url_false_removes_file (cfg : RetryConfig)
    (parsedate : String → Option ℚ) (now : ℚ) (gets : List DlGet)
    (sizeHintBytes : Option Int) (hasCb : Bool) (t0 : ℚ)
    (h : (download_url cfg parsedate now gets sizeHintBytes hasCb t0).result =
      some false) :
    (download_url cfg parsedate now gets sizeHintBytes hasCb t0).fileOnDisk =
      false :=
  downloadUrlBody_false_flag cfg parsedate now gets sizeHintBytes hasCb t0 h

/-- Witness for C2 at concrete inputs: a raised request exception, and a
cancellation after the second chunk, each returning false and leaving no
file. -/
theorem download_url_false_removes_file_witness :
    (download_url ⟨1, 10⟩ (fun _ => none) 0 [DlGet.exc] none true
        0).fileOnDisk = false
      ∧ (download_url ⟨1, 10⟩ (fun _ => none) 0
          [DlGet.ok ⟨200, none, some 200000, "application/x", [⟨65536, 1, false, false⟩, ⟨65536, 2, false, true⟩]⟩]
          none false 0).fileOnDisk = false :=
  ⟨download_url_false_removes_file ⟨1, 10⟩ (fun _ => none) 0 [DlGet.exc] none
      true 0 (by decide),
    download_url_false_removes_file ⟨1, 10⟩ (fun _ => none) 0
      [DlGet.ok ⟨200, none, some 200000, "application/x", [⟨65536, 1, false, false⟩, ⟨65536, 2, false, true⟩]⟩]
      none false 0 (by decide)⟩

end BookDl
